import Mathlib

/-!
Verification development for the style subsystem of the component compiler:
the incremental global-style cache (`src/compiler/style/global-styles.ts`),
the style import linker (`src/compiler/transformers/style-imports.ts`) and
the decorator field rewriter's constructor handling.

The TypeScript sources are shallowly embedded as pure Lean functions.
External collaborators (file system, CSS import extractor, plugin transform
chain, CSS optimizer, path normalizer) are supplied as components of an
environment structure, so every embedded function is a total, executable
Lean definition.  The asynchronous recursive import walk is embedded with an
explicit fuel argument; fuel-independence beyond an explicit bound is proved,
which is the shallow rendering of the source walk's termination.
-/

namespace Stencil

/-- One entry of `buildCtx.diagnostics`.  `catchError` pushes a diagnostic
built from the caught exception message; the caller then assigns
`absFilePath`. -/
structure Diagnostic where
  messageText : String
  absFilePath : Option String
  deriving DecidableEq

/-- Result of `runPluginTransforms`: the source inspects the value with
`typeof` — either a plain string (the CSS code directly) or a descriptor
object with `code` and optional `dependencies`.  A `null` return is the
`Option.none` around this type. -/
inductive TransformResult where
  | str (s : String)
  | obj (code : String) (dependencies : Option (List String))
  deriving DecidableEq

/-- The slice of `CompilerCtx` used by global-styles: the session-scoped
cache slot (`null` is `none`) and the `cssModuleImports` map, embedded as an
association list. -/
structure CompilerCtx where
  cachedGlobalStyle : Option String
  cssModuleImports : List (String × List String)
  deriving DecidableEq

/-- The slice of `BuildCtx` used by global-styles. -/
structure BuildCtx where
  filesChanged : List String
  isRebuild : Bool
  requiresFullBuild : Bool
  hasStyleChanges : Bool
  diagnostics : List Diagnostic
  deriving DecidableEq

/-- The external collaborators of the global-styles module.
`fs` is the file system (`compilerCtx.fs.readFile` succeeds exactly on its
keys); `cssImports` abstracts `getCssImports` (import paths extracted from a
file's path and content); `normalizePath`, `runTransforms` and `optimize`
abstract `@utils.normalizePath`, `runPluginTransforms` and `optimizeCss`.
`Except.error` models a thrown exception. -/
structure StyleEnv where
  fs : List (String × String)
  cssImports : String → String → List String
  normalizePath : String → String
  runTransforms : String → Except String (Option TransformResult)
  optimize : String → String → Except String String

/-- Embedding of `compilerCtx.fs.readFile`: succeeds iff the path is a key of `fs`. -/
def readFileOpt (env : StyleEnv) (p : String) : Option String :=
  (env.fs.find? (fun kv => kv.1 == p)).map (fun kv => kv.2)

/-- JS truthiness of `compilerCtx.cachedGlobalStyle : string | null`:
`!x` is true for `null` and for the empty string. -/
def strTruthy : Option String → Bool
  | none => false
  | some s => !s.isEmpty

/-- Embedding of `Map.get` on the embedded `cssModuleImports`. -/
def cmiGet (m : List (String × List String)) (k : String) : Option (List String) :=
  (m.find? (fun kv => kv.1 == k)).map (fun kv => kv.2)

/-- Embedding of `Map.set` on the embedded `cssModuleImports`. -/
def cmiSet (m : List (String × List String)) (k : String) (v : List String) :
    List (String × List String) :=
  if m.any (fun kv => kv.1 == k) then
    m.map (fun kv => if kv.1 == k then (k, v) else kv)
  else
    m ++ [(k, v)]

/-- The "keep digging" loop of `hasChangedImportContent` (lines 163-174):
read each imported file (a failed read contributes `false` — the `catch` of
lines 167-169) and recurse via `fileFn`; the final verdict is
`results.includes(true)`.  The shared visited array is threaded through the
calls.  The recursive callee is passed as `fileFn`, the standard shallow
rendering of the mutual recursion that keeps the definition structurally
recursive. -/
def walkWith (env : StyleEnv)
    (fileFn : String → String → List String → Bool × List String) :
    List String → List String → Bool × List String
  | [], checkedFiles => (false, checkedFiles)
  | importPath :: rest, checkedFiles =>
    let first :=
      match readFileOpt env importPath with
      | none => (false, checkedFiles)
      | some content => fileFn importPath content checkedFiles
    let restResult := walkWith env fileFn rest first.2
    (first.1 || restResult.1, restResult.2)

/-- Embedding of `hasChangedImportContent` from `global-styles.ts` (lines 139-175) with
the recursive callee abstracted: extract the file's CSS imports; verdict
true if some changed file is among them, otherwise keep digging through
each import. -/
def contentWith (env : StyleEnv) (filesChanged : List String)
    (fileFn : String → String → List String → Bool × List String)
    (filePath content : String) (checkedFiles : List String) :
    Bool × List String :=
  let cssImports := env.cssImports filePath content
  if cssImports.isEmpty then
    (false, checkedFiles)
  else if filesChanged.any (fun f => cssImports.contains f) then
    (true, checkedFiles)
  else
    walkWith env fileFn cssImports checkedFiles

/-- Embedding of `hasChangedImportFile` from `global-styles.ts` (lines 123-137): return
false if the file is already on the `noLoop` visited list, otherwise push it
and inspect its content.  `fuel` is the embedding's recursion budget; the
source recursion needs no budget because the file system is finite, which is
recovered below as fuel-independence beyond `walkBound`. -/
def hasChangedImportFile (env : StyleEnv) (filesChanged : List String) :
    Nat → String → String → List String → Bool × List String
  | 0, _, _, noLoop => (false, noLoop)
  | Nat.succ f, filePath, content, noLoop =>
    if noLoop.contains filePath then
      (false, noLoop)
    else
      contentWith env filesChanged (hasChangedImportFile env filesChanged f)
        filePath content (noLoop ++ [filePath])

/-- Embedding of `hasChangedImportContent` at a given fuel level. -/
def hasChangedImportContent (env : StyleEnv) (filesChanged : List String)
    (fuel : Nat) : String → String → List String → Bool × List String :=
  contentWith env filesChanged (hasChangedImportFile env filesChanged fuel)

/-- The `cssImports.map` / `Promise.all` loop at a given fuel level. -/
def walkCssImports (env : StyleEnv) (filesChanged : List String)
    (fuel : Nat) : List String → List String → Bool × List String :=
  walkWith env (hasChangedImportFile env filesChanged fuel)

/-- Embedding of `canSkipGlobalStyles` from `global-styles.ts` (lines 85-121), with
`gs = config.globalStyle`.  Note the first guard is JS `!cachedGlobalStyle`,
which is also true for a cached empty string. -/
def canSkipGlobalStyles (env : StyleEnv) (gs : String)
    (cctx : CompilerCtx) (bctx : BuildCtx) (fuel : Nat) : Bool :=
  match cctx.cachedGlobalStyle with
  | none => false
  | some cached =>
    if cached.isEmpty then
      -- JS: `if (!compilerCtx.cachedGlobalStyle) return false`
      false
    else if bctx.requiresFullBuild then
      false
    else if bctx.isRebuild && !bctx.hasStyleChanges then
      true
    else if bctx.filesChanged.contains gs then
      false
    else
      match cmiGet cctx.cssModuleImports gs with
      | some deps =>
        if bctx.filesChanged.any (fun f => deps.contains f) then
          false
        else
          !(hasChangedImportFile env bctx.filesChanged fuel gs cached []).1
      | none =>
        !(hasChangedImportFile env bctx.filesChanged fuel gs cached []).1

/-- Truthiness of the `transformResults` value: `null` and the empty string are falsy,
any object is truthy. -/
def trTruthy : Option TransformResult → Bool
  | none => false
  | some (.str s) => !s.isEmpty
  | some (.obj _ _) => true

/-- The `typeof`-dispatch of lines 47-59: a string gives the code directly
with no dependencies; an object with truthy `code` gives both; anything else
is the "Invalid transformResults" branch (`none`). -/
def classifyTransform : TransformResult → Option (String × Option (List String))
  | .str s => some (s, none)
  | .obj code deps => if code.isEmpty then none else some (code, deps)

/-- The aggregate outcome of one `buildGlobalStyles` call: its return value,
the updated compiler context, the final `buildCtx.diagnostics`, and the
paths passed to `addWatchFile` in order. -/
structure BuildOutput where
  result : Option String
  cctx : CompilerCtx
  diagnostics : List Diagnostic
  watchFiles : List String
  deriving DecidableEq

/-- The dependency merge of lines 64-73: each returned dependency is watched,
and appended to the entry's `cssModuleImports` bucket unless already present. -/
def mergeDependencies (cctx : CompilerCtx) (gp : String) (deps : List String) :
    CompilerCtx :=
  let existing := (cmiGet cctx.cssModuleImports gp).getD []
  let merged := deps.foldl (fun acc dep => if acc.contains dep then acc else acc ++ [dep]) existing
  { cctx with cssModuleImports := cmiSet cctx.cssModuleImports gp merged }

/-- Embedding of `buildGlobalStyles` from `global-styles.ts` (lines 26-83).
`globalStyle = config.globalStyle` (`none` for `undefined`; the source guard
`if (!globalStylePath)` also catches the empty string).  A thrown exception
from the transform chain or the optimizer is the `Except.error` case and is
converted by `catchError` into one diagnostic whose `absFilePath` is the
normalized global style path; both failure exits reset the cache slot. -/
def buildGlobalStyles (env : StyleEnv) (globalStyle : Option String)
    (cctx : CompilerCtx) (bctx : BuildCtx) (fuel : Nat) : BuildOutput :=
  match globalStyle with
  | none => ⟨none, cctx, bctx.diagnostics, []⟩
  | some gs =>
    if gs.isEmpty then
      ⟨none, cctx, bctx.diagnostics, []⟩
    else if canSkipGlobalStyles env gs cctx bctx fuel then
      ⟨cctx.cachedGlobalStyle, cctx, bctx.diagnostics, []⟩
    else
      let gp := env.normalizePath gs
      match env.runTransforms gp with
      | .error e =>
        ⟨none, { cctx with cachedGlobalStyle := none },
          bctx.diagnostics ++ [⟨e, some gp⟩], [gp]⟩
      | .ok transformResults =>
        if trTruthy transformResults then
          match classifyTransform ((transformResults).getD (.str "")) with
          | none =>
            -- "Invalid transformResults": cache reset, return null
            ⟨none, { cctx with cachedGlobalStyle := none }, bctx.diagnostics, [gp]⟩
          | some (cssCode, dependencies) =>
            match env.optimize cssCode gp with
            | .error e =>
              ⟨none, { cctx with cachedGlobalStyle := none },
                bctx.diagnostics ++ [⟨e, some gp⟩], [gp]⟩
            | .ok optimizedCss =>
              let cctx1 := { cctx with cachedGlobalStyle := some optimizedCss }
              match dependencies with
              | some deps =>
                ⟨some optimizedCss, mergeDependencies cctx1 gp deps,
                  bctx.diagnostics, [gp] ++ deps⟩
              | none =>
                ⟨some optimizedCss, cctx1, bctx.diagnostics, [gp]⟩
        else
          -- falsy transformResults (null or empty string): control leaves the
          -- `if (transformResults)` block and reaches lines 81-82
          ⟨none, { cctx with cachedGlobalStyle := none }, bctx.diagnostics, [gp]⟩

/-! ### Specification-side decision sequence for the cache-validity check -/

/-- The cache-validity decision sequence as the specification words it
(spec 4.3, steps 1-6): step 1 is "if no cached value exists yet → stale",
i.e. the explicit no-value marker (`none`); every other step follows the
spec's order.  Written independently of `canSkipGlobalStyles` to be compared
with it. -/
def canSkipSpecSequence (env : StyleEnv) (gs : String)
    (cctx : CompilerCtx) (bctx : BuildCtx) (fuel : Nat) : Bool :=
  match cctx.cachedGlobalStyle with
  | none => false
  | some cached =>
    if bctx.requiresFullBuild then
      false
    else if bctx.isRebuild && !bctx.hasStyleChanges then
      true
    else if bctx.filesChanged.contains gs then
      false
    else if (match cmiGet cctx.cssModuleImports gs with
             | some deps => bctx.filesChanged.any (fun f => deps.contains f)
             | none => false) then
      false
    else
      !(hasChangedImportFile env bctx.filesChanged fuel gs cached []).1

/-- The amended decision sequence: identical to `canSkipSpecSequence` except
that step 1 also treats a cached empty string as "no cached value" (the
source guard is JS `!cachedGlobalStyle`, which is true on the empty string). -/
def canSkipSpecAmended (env : StyleEnv) (gs : String)
    (cctx : CompilerCtx) (bctx : BuildCtx) (fuel : Nat) : Bool :=
  match cctx.cachedGlobalStyle with
  | none => false
  | some cached =>
    if cached.isEmpty then
      false
    else if bctx.requiresFullBuild then
      false
    else if bctx.isRebuild && !bctx.hasStyleChanges then
      true
    else if bctx.filesChanged.contains gs then
      false
    else if (match cmiGet cctx.cssModuleImports gs with
             | some deps => bctx.filesChanged.any (fun f => deps.contains f)
             | none => false) then
      false
    else
      !(hasChangedImportFile env bctx.filesChanged fuel gs cached []).1

/-! ### Termination bound for the import walk -/

/-- The file paths on which a read can succeed. -/
def fsKeys (env : StyleEnv) : List String := (env.fs.map Prod.fst).dedup

/-- How many readable paths are not yet on the visited list. -/
def walkMissing (env : StyleEnv) (vis : List String) : Nat :=
  ((fsKeys env).filter (fun k => decide (k ∉ vis))).length

/-- A fuel budget beyond which the walk's result no longer changes: one unit
per readable file that can still be pushed onto the visited list, one for
the top-level entry (whose path need not be readable), one to spare. -/
def walkBound (env : StyleEnv) (vis : List String) : Nat :=
  walkMissing env vis + 2

/-! ## Style import linker (`src/compiler/transformers/style-imports.ts`)

TypeScript statements are embedded abstractly: an import declaration with a
string-literal module specifier and an optional default import binding, a
a require-call variable statement, or any other statement
(opaque).  This is exactly the granularity the linker inspects
(`isImportDeclaration`, `importClause.name`, `moduleSpecifier` text). -/

/-- An embedded module-level statement. -/
inductive Stmt where
  /-- An import declaration binding `name` to a module path (`name := none`
  when the declaration has no default binding, e.g. a bare side-effect
  form). -/
  | importDecl (name : Option String) (modulePath : String)
  /-- A require-call variable statement as built by `createCjsStyleRequire`. -/
  | requireStmt (name : String) (modulePath : String)
  /-- Any other statement, identified opaquely. -/
  | other (id : Nat)
  deriving DecidableEq

/-- Embedding of `ts.isImportDeclaration`. -/
def isImportDecl : Stmt → Bool
  | .importDecl _ _ => true
  | _ => false

/-- Embedding of `d.StyleCompiler`: the fields the linker reads.  `styleIdentifier` is
`some` exactly when the source typeof test sees a string identifier;
`externalStyles` keeps only each entry's `absolutePath`. -/
structure StyleCompiler where
  styleIdentifier : Option String
  externalStyles : List String
  modeName : String
  deriving DecidableEq

/-- Embedding of `d.ComponentCompilerMeta`: the fields the linker reads. -/
structure Cmp where
  tagName : String
  encapsulation : String
  styles : List StyleCompiler
  deriving DecidableEq

/-- Embedding of `d.Module`: the component list. -/
structure ModuleFile where
  cmps : List Cmp
  deriving DecidableEq

/-- Embedding of `ts.SourceFile`: file name and statement list. -/
structure SourceFile where
  fileName : String
  statements : List Stmt
  deriving DecidableEq

/-- Embedding of `d.SerializeImportData`: the four inputs plus the importer path handed
to the external module-path serializer. -/
structure SerializeImportData where
  importeePath : String
  importerPath : String
  tag : String
  encapsulation : String
  mode : String
  deriving DecidableEq

/-- The external `serializeImportPath` collaborator (`stencil-import-path`),
abstracted as a function argument (`transformOpts.styleImportData` is folded
into it). -/
def Serializer : Type := SerializeImportData → String

/-- Embedding of `getStyleImportPath` (lines 158-173). -/
def getStyleImportPath (serialize : Serializer) (tsSourceFile : SourceFile)
    (cmp : Cmp) (style : StyleCompiler) (importPath : String) : String :=
  serialize ⟨importPath, tsSourceFile.fileName, cmp.tagName, cmp.encapsulation, style.modeName⟩

/-- Embedding of `createEsmStyleImport` (lines 89-104), for a style whose identifier is
`ident`: a new default import of the path serialized from the first external
style's absolute path. -/
def createEsmStyleImport (serialize : Serializer) (tsSourceFile : SourceFile)
    (cmp : Cmp) (style : StyleCompiler) (ident : String) : Stmt :=
  .importDecl (some ident)
    (getStyleImportPath serialize tsSourceFile cmp style (style.externalStyles.headD ""))

/-- Embedding of `updateEsmStyleImportPath` (lines 60-87): rewrite the module path of the
first import declaration whose default binding equals the style identifier,
keeping its position; the original module path is fed back into the
serializer as the importee. -/
def updateEsmStyleImportPath (serialize : Serializer) (tsSourceFile : SourceFile)
    (statements : List Stmt) (cmp : Cmp) (style : StyleCompiler) (ident : String) :
    List Stmt :=
  match statements with
  | [] => []
  | n :: rest =>
    match n with
    | .importDecl (some name) orgImportPath =>
      if name = ident then
        .importDecl (some name)
            (getStyleImportPath serialize tsSourceFile cmp style orgImportPath) :: rest
      else
        n :: updateEsmStyleImportPath serialize tsSourceFile rest cmp style ident
    | _ => n :: updateEsmStyleImportPath serialize tsSourceFile rest cmp style ident

/-- The `(cmp, style)` pairs in `moduleFile.cmps.forEach`/`cmp.styles.forEach`
iteration order. -/
def stylePairs (moduleFile : ModuleFile) : List (Cmp × StyleCompiler) :=
  moduleFile.cmps.flatMap (fun cmp => cmp.styles.map (fun style => (cmp, style)))

/-- One step of the ESM `forEach` body (lines 28-41), acting on the
accumulated `(styleImports, statements, updateSourceFile)` state. -/
def esmStep (serialize : Serializer) (tsSourceFile : SourceFile)
    (acc : List Stmt × List Stmt × Bool) (p : Cmp × StyleCompiler) :
    List Stmt × List Stmt × Bool :=
  match p.2.styleIdentifier with
  | none => acc
  | some ident =>
    if p.2.externalStyles.length > 0 then
      (acc.1 ++ [createEsmStyleImport serialize tsSourceFile p.1 p.2 ident], acc.2.1, true)
    else
      (acc.1, updateEsmStyleImportPath serialize tsSourceFile acc.2.1 p.1 p.2 ident, true)

/-- The `lastImportIndex` scan of lines 44-50 (`-1` when the list holds
no statement that is an import declaration). -/
def lastImportIndex (statements : List Stmt) : Int :=
  statements.enum.foldl (fun acc p => if isImportDecl p.2 then (p.1 : Int) else acc) (-1)

/-- Embedding of `statements.splice(lastImportIndex + 1, 0, ...styleImports)`. -/
def spliceAfterLastImport (statements : List Stmt) (styleImports : List Stmt) :
    List Stmt :=
  let n := (lastImportIndex statements + 1).toNat
  statements.take n ++ styleImports ++ statements.drop n

/-- Embedding of `updateEsmStyleImports` (lines 19-58). -/
def updateEsmStyleImports (serialize : Serializer) (tsSourceFile : SourceFile)
    (moduleFile : ModuleFile) : SourceFile :=
  let fold := (stylePairs moduleFile).foldl (esmStep serialize tsSourceFile)
    ([], tsSourceFile.statements, false)
  if fold.2.2 then
    { tsSourceFile with statements := spliceAfterLastImport fold.2.1 fold.1 }
  else
    tsSourceFile

/-- Embedding of `createCjsStyleRequire` (lines 129-156). -/
def createCjsStyleRequire (serialize : Serializer) (tsSourceFile : SourceFile)
    (cmp : Cmp) (style : StyleCompiler) (ident : String) : Stmt :=
  .requireStmt ident
    (getStyleImportPath serialize tsSourceFile cmp style (style.externalStyles.headD ""))

/-- Embedding of `updateCjsStyleRequires` (lines 106-127). -/
def updateCjsStyleRequires (serialize : Serializer) (tsSourceFile : SourceFile)
    (moduleFile : ModuleFile) : SourceFile :=
  let styleRequires := (stylePairs moduleFile).filterMap (fun p =>
    match p.2.styleIdentifier with
    | some ident =>
      if p.2.externalStyles.length > 0 then
        some (createCjsStyleRequire serialize tsSourceFile p.1 p.2 ident)
      else
        none
    | none => none)
  if styleRequires.length > 0 then
    { tsSourceFile with statements := styleRequires ++ tsSourceFile.statements }
  else
    tsSourceFile

/-- Embedding of `updateStyleImports` (lines 6-17): dispatch on the output module format. -/
def updateStyleImports (modFormat : String) (serialize : Serializer)
    (tsSourceFile : SourceFile) (moduleFile : ModuleFile) : SourceFile :=
  if modFormat = "cjs" then
    updateCjsStyleRequires serialize tsSourceFile moduleFile
  else
    updateEsmStyleImports serialize tsSourceFile moduleFile

/-- Whether a statement is an import declaration whose default binding is
`ident` (the match condition of `updateEsmStyleImportPath`). -/
def isBoundImport (s : Stmt) (ident : String) : Bool :=
  match s with
  | .importDecl (some name) _ => decide (name = ident)
  | _ => false

/-- The new ESM style import contributed by one `(cmp, style)` pair: `some`
exactly when the style has a string identifier and a non-empty
`externalStyles` list. -/
def esmNewImportOf (serialize : Serializer) (tsSourceFile : SourceFile)
    (p : Cmp × StyleCompiler) : Option Stmt :=
  match p.2.styleIdentifier with
  | some ident =>
    if p.2.externalStyles.length > 0 then
      some (createEsmStyleImport serialize tsSourceFile p.1 p.2 ident)
    else
      none
  | none => none

/-- The new ESM style imports created by one `updateEsmStyleImports` run, in
ComponentMeta/StyleEntry iteration order. -/
def esmNewImports (serialize : Serializer) (tsSourceFile : SourceFile)
    (moduleFile : ModuleFile) : List Stmt :=
  (stylePairs moduleFile).filterMap (esmNewImportOf serialize tsSourceFile)

/-! ## Field rewriter constructor handling

Modelled from the spec: the Field Rewriter implementation
(`decorators-to-static/convert-decorators.ts`) is not among the provided
sources — only its test suite is — so its constructor handling is modelled
from spec section 4.1 and cross-checked against the test expectations
(`convert-decorators.spec.ts`, e.g. lines 178-221 and 244-260). -/

/-- One annotated field participating in constructor initialization
(kind Prop/State/Other), in declaration order: member name and captured
initial value text (the string `"undefined"` when none was given). -/
structure RewriteField where
  name : String
  initialValue : String
  deriving DecidableEq

/-- A statement of the rewritten constructor body.  User-written statements
that are not assignments to `this.*` are opaque (`user`). -/
inductive CtorStmt where
  /-- A bare `super()` call. -/
  | superCall
  /-- Assignment `this.member = value`. -/
  | assign (member : String) (value : String)
  /-- Any other user-written statement, identified opaquely. -/
  | user (id : Nat)
  deriving DecidableEq

/-- Modelled from the spec: constructor handling of the Field Rewriter
(spec 4.1).  No constructor and no fields: no constructor is added.  No
constructor but fields: a constructor is synthesized holding a bare
superclass call when the class extends another, then one assignment per
field in declaration order.  Existing constructor: the assignments are
inserted as the leading statements before the user's statements (after the
superclass call when one is needed), preserving the user statements
verbatim and in order. -/
def rewriteConstructor (fields : List RewriteField)
    (existingCtor : Option (List CtorStmt)) (extendsCls : Bool) :
    Option (List CtorStmt) :=
  let assigns := fields.map (fun f => CtorStmt.assign f.name f.initialValue)
  let superPart := if extendsCls then [CtorStmt.superCall] else []
  match existingCtor with
  | none => if fields.isEmpty then none else some (superPart ++ assigns)
  | some userStmts => some (superPart ++ assigns ++ userStmts)

/-- Runtime evaluation of a constructor body restricted to what decides a
member's final value: the last assignment to the member wins; `none` when
the member is never assigned. -/
def finalValue (stmts : List CtorStmt) (member : String) : Option String :=
  stmts.foldl (fun acc s =>
    match s with
    | .assign m v => if m = member then some v else acc
    | _ => acc) none

/-! ## Concrete environments used by counterexamples and witnesses -/

/-- A serializer that returns the importee path unchanged. -/
def idSerializer : Serializer := fun d => d.importeePath

/-- The trivial environment: empty file system, no CSS imports, identity
path normalization, a transform chain returning `null`, identity optimizer. -/
def envNil : StyleEnv :=
  ⟨[], fun _ _ => [], fun p => p, fun _ => .ok none, fun s _ => .ok s⟩

/-- An environment whose transform chain returns the given value and whose
optimizer appends `"!"` (so optimizer input and output are distinguishable). -/
def mkTransformEnv (tr : Except String (Option TransformResult)) : StyleEnv :=
  ⟨[], fun _ _ => [], fun p => p, fun _ => tr, fun s _ => .ok (s ++ "!")⟩

/-- The cyclic import graph `A → B → A`: file `A` has content `ca` importing
`B`, file `B` has content `cb` importing `A`. -/
def envABA : StyleEnv :=
  ⟨[("A", "ca"), ("B", "cb")],
   fun _ c => if c = "ca" then ["B"] else if c = "cb" then ["A"] else [],
   fun p => p, fun _ => .ok none, fun s _ => .ok s⟩

/-- A graph with an unreadable import: `A` (content `ca`) imports `bad` and
`B`; `bad` is not readable; `B` (content `cb`) imports `C`. -/
def envBadRead : StyleEnv :=
  ⟨[("A", "ca"), ("B", "cb")],
   fun _ c => if c = "ca" then ["bad", "B"] else if c = "cb" then ["C"] else [],
   fun p => p, fun _ => .ok none, fun s _ => .ok s⟩

/-- A module whose only statement is an import already bound to the style
identifier `cmpAStyle0`. -/
def sfC6 : SourceFile :=
  ⟨"mod.tsx", [.importDecl (some "cmpAStyle0") "old-path"]⟩

/-- One component with one style entry bound to `cmpAStyle0`, backed by one
external asset. -/
def mC6 : ModuleFile :=
  ⟨[⟨"cmp-a", "none", [⟨some "cmpAStyle0", ["/abs/a.css"], ""⟩]⟩]⟩

/-! # Theorems -/

/-- Claim C1. The claim states the decision sequence with step 1 reading "if
no cached value exists" (the explicit no-value marker); but the source guard
is JS `!cachedGlobalStyle`, which is also true for a cached empty string: at
`cachedGlobalStyle = some ""` with `isRebuild` and no style changes, the
claimed sequence reaches step 3 and yields "valid" while the code reports
"stale". -/
theorem c1_counterexample_empty_cached_string :
    canSkipGlobalStyles envNil "global.css" ⟨some "", []⟩ ⟨[], true, false, false, []⟩ 0 = false ∧
    canSkipSpecSequence envNil "global.css" ⟨some "", []⟩ ⟨[], true, false, false, []⟩ 0 = true := by
  decide

/-- Claim C1 (amended). The cache-validity decision of `canSkipGlobalStyles`
evaluates, for every build context, exactly the claimed short-circuit
sequence amended in step 1 so that a cached empty string is treated the same
as an absent cache: (1) no cached value or cached empty string → stale;
(2) `requiresFullBuild` → stale; (3) `isRebuild && !hasStyleChanges` →
valid; (4) entry file among `filesChanged` → stale; (5) a recorded direct
dependency among `filesChanged` → stale; (6) otherwise the recursive walk
of the import graph decides. -/
theorem c1_canSkipGlobalStyles_eq_amended_sequence
    (env : StyleEnv) (gs : String) (cctx : CompilerCtx) (bctx : BuildCtx) (fuel : Nat) :
    canSkipGlobalStyles env gs cctx bctx fuel = canSkipSpecAmended env gs cctx bctx fuel := by
  unfold canSkipGlobalStyles canSkipSpecAmended
  cases cctx.cachedGlobalStyle with
  | none => rfl
  | some cached =>
    cases h : cmiGet cctx.cssModuleImports gs with
    | none => simp [h]
    | some deps => simp [h]

/-- Claim C2. With a (truthy) cached global style, `requiresFullBuild` false,
`isRebuild` true and `hasStyleChanges` false, `buildGlobalStyles` returns
the cached text unchanged, leaves the compiler context and diagnostics
untouched and registers no watch file — for every environment, hence without
any file read or transform — in particular even when the entry style file is
among `filesChanged`, because the short-circuit precedes the entry-file
check. -/
theorem c2_rebuild_short_circuit_returns_cache
    (env : StyleEnv) (gs s : String) (cctx : CompilerCtx) (bctx : BuildCtx) (fuel : Nat)
    (hgs : gs.isEmpty = false) (hc : cctx.cachedGlobalStyle = some s)
    (hs : s.isEmpty = false) (hfb : bctx.requiresFullBuild = false)
    (hrb : bctx.isRebuild = true) (hsc : bctx.hasStyleChanges = false) :
    buildGlobalStyles env (some gs) cctx bctx fuel =
      ⟨some s, cctx, bctx.diagnostics, []⟩ := by
  have hskip : canSkipGlobalStyles env gs cctx bctx fuel = true := by
    unfold canSkipGlobalStyles
    rw [hc]
    simp [hs, hfb, hrb, hsc]
  unfold buildGlobalStyles
  simp [hgs, hskip, hc]

/-- Claim C2 witness. A concrete instance in which the entry style file itself
is among `filesChanged` and the cached text is still returned untouched. -/
theorem c2_rebuild_short_circuit_witness :
    ("g.css" : String).isEmpty = false ∧
    buildGlobalStyles envNil (some "g.css") ⟨some "X", []⟩
        ⟨["g.css"], true, false, false, []⟩ 0 =
      ⟨some "X", ⟨some "X", []⟩, [], []⟩ :=
  ⟨by decide,
   c2_rebuild_short_circuit_returns_cache envNil "g.css" "X" ⟨some "X", []⟩
     ⟨["g.css"], true, false, false, []⟩ 0 (by decide) rfl (by decide) rfl rfl rfl⟩

/-- Claim C4. Whenever the plugin-transform chain or the CSS optimizer fails
during a stale recomputation, `buildGlobalStyles` returns `null`, resets the
cache slot to the no-valid-value marker, leaves `cssModuleImports` untouched
(no partially-built cache), and appends exactly one diagnostic carrying the
(normalized) global style file path; the failure never escapes, since the
embedded function is total and this equation gives its value. -/
theorem c4_failure_resets_cache_and_reports
    (env : StyleEnv) (gs : String) (cctx : CompilerCtx) (bctx : BuildCtx)
    (fuel : Nat) (e : String)
    (hgs : gs.isEmpty = false)
    (hskip : canSkipGlobalStyles env gs cctx bctx fuel = false)
    (hfail : env.runTransforms (env.normalizePath gs) = .error e ∨
      ∃ tr code deps,
        env.runTransforms (env.normalizePath gs) = .ok tr ∧
        trTruthy tr = true ∧
        classifyTransform (tr.getD (.str "")) = some (code, deps) ∧
        env.optimize code (env.normalizePath gs) = .error e) :
    buildGlobalStyles env (some gs) cctx bctx fuel =
      ⟨none, { cctx with cachedGlobalStyle := none },
        bctx.diagnostics ++ [⟨e, some (env.normalizePath gs)⟩],
        [env.normalizePath gs]⟩ := by
  unfold buildGlobalStyles
  rcases hfail with h | ⟨tr, code, deps, h1, h2, h3, h4⟩
  · simp [hgs, hskip, h]
  · simp [hgs, hskip, h1, h2, h3, h4]

/-- Claim C4 witness. A concrete failing transform chain: the failure message
lands in one diagnostic carrying the path and the cache is reset. -/
theorem c4_failure_witness :
    canSkipGlobalStyles (mkTransformEnv (.error "boom")) "g.css" ⟨none, []⟩
        ⟨[], false, false, false, []⟩ 0 = false ∧
    buildGlobalStyles (mkTransformEnv (.error "boom")) (some "g.css") ⟨none, []⟩
        ⟨[], false, false, false, []⟩ 0 =
      ⟨none, ⟨none, []⟩, [⟨"boom", some "g.css"⟩], ["g.css"]⟩ :=
  ⟨by decide,
   c4_failure_resets_cache_and_reports (mkTransformEnv (.error "boom")) "g.css"
     ⟨none, []⟩ ⟨[], false, false, false, []⟩ 0 "boom" (by decide) (by decide)
     (Or.inl rfl)⟩

/-- Claim C5. The claim says a transform chain returning the empty string —
"distinct from null" — still has the empty string optimized and cached; but
the source tests `if (transformResults)`, and the empty string is falsy in
JS, so an
empty-string result falls through to the cache-reset exit exactly like
`null`: nothing is optimized (the optimizer would have produced `"!"`), the
result is `null` and the cache is reset. -/
theorem c5_counterexample_empty_string_result :
    buildGlobalStyles (mkTransformEnv (.ok (some (.str "")))) (some "g.css")
        ⟨none, []⟩ ⟨[], false, false, false, []⟩ 0 =
      ⟨none, ⟨none, []⟩, [], ["g.css"]⟩ ∧
    (buildGlobalStyles (mkTransformEnv (.ok (some (.str "")))) (some "g.css")
        ⟨none, []⟩ ⟨[], false, false, false, []⟩ 0).result ≠ some "!" := by
  decide

/-- Claim C5 (amended). On a stale recomputation, every NON-EMPTY plain string
returned by the plugin-transform chain is passed through the CSS optimizer
and the optimized result becomes both the new cached value and the
function's output; a null return — and, contrary to the claim, likewise an
empty-string return — leads to the cache-reset/null exit. -/
theorem c5_amended_nonempty_string_is_optimized_and_cached
    (env : StyleEnv) (gs : String) (cctx : CompilerCtx) (bctx : BuildCtx)
    (fuel : Nat) (s o : String)
    (hgs : gs.isEmpty = false)
    (hskip : canSkipGlobalStyles env gs cctx bctx fuel = false)
    (hs : s.isEmpty = false)
    (htr : env.runTransforms (env.normalizePath gs) = .ok (some (.str s)))
    (hopt : env.optimize s (env.normalizePath gs) = .ok o) :
    buildGlobalStyles env (some gs) cctx bctx fuel =
      ⟨some o, { cctx with cachedGlobalStyle := some o },
        bctx.diagnostics, [env.normalizePath gs]⟩ := by
  unfold buildGlobalStyles
  simp [hgs, hskip, htr, trTruthy, hs, classifyTransform, hopt]

/-- Claim C5 witness. A concrete non-empty transform result `"body"` is
optimized to `"body!"`, which is returned and cached. -/
theorem c5_amended_witness :
    ("body" : String).isEmpty = false ∧
    buildGlobalStyles (mkTransformEnv (.ok (some (.str "body")))) (some "g.css")
        ⟨none, []⟩ ⟨[], false, false, false, []⟩ 0 =
      ⟨some "body!", ⟨some "body!", []⟩, [], ["g.css"]⟩ :=
  ⟨by decide,
   c5_amended_nonempty_string_is_optimized_and_cached
     (mkTransformEnv (.ok (some (.str "body")))) "g.css" ⟨none, []⟩
     ⟨[], false, false, false, []⟩ 0 "body" "body!" (by decide) (by decide)
     (by decide) rfl rfl⟩

/-- Claim C7. (Modelled from the spec; the rewriter source is not among the
provided files.)  For annotated fields `a` then `b` and an existing user
constructor with statement `S`, the rewritten constructor is exactly
`[assign a, assign b, S]`, preceded by a superclass call when the class
extends another; and for a Prop field `x` with captured value `undefined`
and a user constructor assigning `this.x = 3`, the statement order is
`[this.x = undefined, this.x = 3]`, so the user's value wins at runtime. -/
theorem c7_constructor_ordering_and_user_precedence :
    (∀ (a b av bv : String) (S : CtorStmt) (ext : Bool),
      rewriteConstructor [⟨a, av⟩, ⟨b, bv⟩] (some [S]) ext =
        some ((if ext then [CtorStmt.superCall] else []) ++
          [.assign a av, .assign b bv, S])) ∧
    rewriteConstructor [⟨"x", "undefined"⟩] (some [.assign "x" "3"]) false =
      some [.assign "x" "undefined", .assign "x" "3"] ∧
    finalValue [.assign "x" "undefined", .assign "x" "3"] "x" = some "3" := by
  refine ⟨?_, by decide, by decide⟩
  intro a b av bv S ext
  cases ext <;> rfl

/-! ### Linker lemmas -/

/-- The function `updateEsmStyleImportPath` is the identity on a statement list holding
no import declaration at all. -/
theorem updateEsmStyleImportPath_no_imports (serialize : Serializer)
    (sf : SourceFile) (cmp : Cmp) (style : StyleCompiler) (ident : String) :
    ∀ stmts : List Stmt, (∀ s ∈ stmts, isImportDecl s = false) →
      updateEsmStyleImportPath serialize sf stmts cmp style ident = stmts := by
  intro stmts
  induction stmts with
  | nil => intro _; rfl
  | cons s rest ih =>
    intro h
    have hs := h s (by simp)
    have hrest : ∀ x ∈ rest, isImportDecl x = false := fun x hx => h x (by simp [hx])
    cases s with
    | importDecl name path => simp [isImportDecl] at hs
    | requireStmt n p => simp [updateEsmStyleImportPath, ih hrest]
    | other i => simp [updateEsmStyleImportPath, ih hrest]

/-- The `lastImportIndex` scan returns its initial accumulator when the list
holds no import declaration, whatever starting index the enumeration uses. -/
theorem enumFrom_lastImport_init :
    ∀ stmts : List Stmt, (∀ s ∈ stmts, isImportDecl s = false) →
    ∀ (n : Nat) (init : Int),
      (List.enumFrom n stmts).foldl
        (fun acc p => if isImportDecl p.2 then (p.1 : Int) else acc) init = init := by
  intro stmts
  induction stmts with
  | nil => intro _ n init; rfl
  | cons s rest ih =>
    intro h n init
    have hs := h s (by simp)
    have hrest : ∀ x ∈ rest, isImportDecl x = false := fun x hx => h x (by simp [hx])
    simp only [List.enumFrom, List.foldl_cons, hs, Bool.false_eq_true, if_false]
    exact ih hrest (n + 1) init

/-- On an import-free statement list, `lastImportIndex` is `-1`. -/
theorem lastImportIndex_no_imports (stmts : List Stmt)
    (h : ∀ s ∈ stmts, isImportDecl s = false) : lastImportIndex stmts = -1 :=
  enumFrom_lastImport_init stmts h 0 (-1)

/-- When no style carries an identifier, the ESM `forEach` body leaves the
accumulated state untouched. -/
theorem esm_foldl_all_none (serialize : Serializer) (sf : SourceFile) :
    ∀ pairs : List (Cmp × StyleCompiler),
      (∀ p ∈ pairs, p.2.styleIdentifier = none) →
      ∀ acc, pairs.foldl (esmStep serialize sf) acc = acc := by
  intro pairs
  induction pairs with
  | nil => intro _ acc; rfl
  | cons p rest ih =>
    intro h acc
    have hp := h p (by simp)
    have hrest : ∀ x ∈ rest, x.2.styleIdentifier = none := fun x hx => h x (by simp [hx])
    simp only [List.foldl_cons]
    rw [show esmStep serialize sf acc p = acc from by simp [esmStep, hp]]
    exact ih hrest acc

/-- On an import-free statement list, the ESM `forEach` fold collects the
new style imports in iteration order, leaves the statements untouched, and
raises the update flag exactly when some style carries an identifier. -/
theorem esm_foldl_no_imports (serialize : Serializer) (sf : SourceFile) :
    ∀ (pairs : List (Cmp × StyleCompiler)) (acc1 stmts : List Stmt) (b : Bool),
      (∀ s ∈ stmts, isImportDecl s = false) →
      pairs.foldl (esmStep serialize sf) (acc1, stmts, b) =
        (acc1 ++ pairs.filterMap (esmNewImportOf serialize sf), stmts,
          b || pairs.any (fun p => p.2.styleIdentifier.isSome)) := by
  intro pairs
  induction pairs with
  | nil => intro acc1 stmts b _; simp
  | cons p rest ih =>
    intro acc1 stmts b h
    simp only [List.foldl_cons, List.filterMap_cons, List.any_cons]
    cases hid : p.2.styleIdentifier with
    | none =>
      rw [show esmStep serialize sf (acc1, stmts, b) p = (acc1, stmts, b) from by
        simp [esmStep, hid]]
      rw [ih acc1 stmts b h]
      simp [esmNewImportOf, hid]
    | some ident =>
      by_cases hext : p.2.externalStyles.length > 0
      · rw [show esmStep serialize sf (acc1, stmts, b) p =
            (acc1 ++ [createEsmStyleImport serialize sf p.1 p.2 ident], stmts, true) from by
          simp [esmStep, hid, hext]]
        rw [ih (acc1 ++ [createEsmStyleImport serialize sf p.1 p.2 ident]) stmts true h]
        simp [esmNewImportOf, hid, hext]
      · rw [show esmStep serialize sf (acc1, stmts, b) p = (acc1, stmts, true) from by
          simp [esmStep, hid, hext, updateEsmStyleImportPath_no_imports serialize sf p.1 p.2 ident stmts h]]
        rw [ih acc1 stmts true h]
        simp [esmNewImportOf, hid, hext]

/-- The function `updateEsmStyleImportPath` rewrites in place the module path of the
first import bound to the identifier, leaving every other statement and its
position untouched. -/
theorem updateEsmStyleImportPath_rewrites_first (serialize : Serializer)
    (sf : SourceFile) (cmp : Cmp) (style : StyleCompiler) (ident : String) :
    ∀ xs : List Stmt, (∀ s ∈ xs, isBoundImport s ident = false) →
    ∀ (p : String) (ys : List Stmt),
      updateEsmStyleImportPath serialize sf (xs ++ .importDecl (some ident) p :: ys)
          cmp style ident =
        xs ++ .importDecl (some ident)
          (getStyleImportPath serialize sf cmp style p) :: ys := by
  intro xs
  induction xs with
  | nil => intro _ p ys; simp [updateEsmStyleImportPath]
  | cons s rest ih =>
    intro h p ys
    have hs := h s (by simp)
    have hrest : ∀ x ∈ rest, isBoundImport x ident = false := fun x hx => h x (by simp [hx])
    cases s with
    | importDecl name path =>
      cases name with
      | none => simp [updateEsmStyleImportPath, ih hrest]
      | some nm =>
        have hne : ¬nm = ident := by simpa [isBoundImport] using hs
        simp [updateEsmStyleImportPath, hne, ih hrest]
    | requireStmt n q => simp [updateEsmStyleImportPath, ih hrest]
    | other i => simp [updateEsmStyleImportPath, ih hrest]

/-- Claim C9. When no component style carries a bound identifier,
`updateStyleImports` returns the input source file itself (the source
returns the very same object reference) in both module conventions. -/
theorem c9_no_identifiers_returns_input
    (serialize : Serializer) (fmt : String) (sf : SourceFile) (m : ModuleFile)
    (h : ∀ cmp ∈ m.cmps, ∀ style ∈ cmp.styles, style.styleIdentifier = none) :
    updateStyleImports fmt serialize sf m = sf := by
  have hp : ∀ p ∈ stylePairs m, p.2.styleIdentifier = none := by
    intro p hmem
    simp only [stylePairs, List.mem_flatMap, List.mem_map] at hmem
    obtain ⟨cmp, hc, style, hsm, rfl⟩ := hmem
    exact h cmp hc style hsm
  unfold updateStyleImports
  by_cases hf : fmt = "cjs"
  · have hreq : (stylePairs m).filterMap (fun p =>
        match p.2.styleIdentifier with
        | some ident =>
          if p.2.externalStyles.length > 0 then
            some (createCjsStyleRequire serialize sf p.1 p.2 ident)
          else none
        | none => none) = [] := by
      rw [List.filterMap_eq_nil_iff]
      intro p hmem
      rw [hp p hmem]
    simp [hf, updateCjsStyleRequires, hreq]
  · rw [if_neg hf]
    unfold updateEsmStyleImports
    rw [esm_foldl_all_none serialize sf (stylePairs m) hp]
    rfl

/-- Claim C9 witness. A module with one component whose single style has no
identifier: both conventions return the input unchanged. -/
theorem c9_no_identifiers_witness :
    (∀ cmp ∈ (⟨[⟨"cmp-a", "none", [⟨none, [], ""⟩]⟩]⟩ : ModuleFile).cmps,
      ∀ style ∈ cmp.styles, style.styleIdentifier = none) ∧
    updateStyleImports "cjs" idSerializer sfC6 ⟨[⟨"cmp-a", "none", [⟨none, [], ""⟩]⟩]⟩ = sfC6 ∧
    updateStyleImports "esm" idSerializer sfC6 ⟨[⟨"cmp-a", "none", [⟨none, [], ""⟩]⟩]⟩ = sfC6 :=
  ⟨by decide,
   c9_no_identifiers_returns_input idSerializer "cjs" sfC6 _ (by decide),
   c9_no_identifiers_returns_input idSerializer "esm" sfC6 _ (by decide)⟩

/-- Claim C10. In the ESM convention, when the module holds no import
declaration at all, every newly created style import lands at position 0 —
before all original statements — and multiple new style imports appear in
ComponentMeta/StyleEntry iteration order. -/
theorem c10_no_imports_inserts_at_front
    (serialize : Serializer) (sf : SourceFile) (m : ModuleFile)
    (h : ∀ s ∈ sf.statements, isImportDecl s = false) :
    updateEsmStyleImports serialize sf m =
      ⟨sf.fileName, esmNewImports serialize sf m ++ sf.statements⟩ := by
  unfold updateEsmStyleImports
  rw [esm_foldl_no_imports serialize sf (stylePairs m) [] sf.statements false h]
  by_cases hany : ((stylePairs m).any fun p => p.2.styleIdentifier.isSome) = true
  · simp only [hany, Bool.false_or, if_true]
    unfold spliceAfterLastImport
    rw [lastImportIndex_no_imports sf.statements h]
    simp [esmNewImports]
  · have hb : ((stylePairs m).any fun p => p.2.styleIdentifier.isSome) = false := by
      simpa using hany
    have hnil : (stylePairs m).filterMap (esmNewImportOf serialize sf) = [] := by
      rw [List.filterMap_eq_nil_iff]
      intro p hmem
      have : p.2.styleIdentifier.isSome = false := by
        simpa using List.any_eq_false.mp hb p hmem
      unfold esmNewImportOf
      cases hid : p.2.styleIdentifier with
      | none => rfl
      | some ident => rw [hid] at this; simp at this
    simp only [hb, Bool.false_or, if_false]
    rw [show esmNewImports serialize sf m = [] from hnil]
    cases sf
    simp

/-- Claim C10 witness. Two style entries over a module with no imports: both
new style imports appear at the front, in iteration order. -/
theorem c10_no_imports_witness :
    (∀ s ∈ (⟨"mod.tsx", [.other 0]⟩ : SourceFile).statements, isImportDecl s = false) ∧
    updateEsmStyleImports idSerializer ⟨"mod.tsx", [.other 0]⟩
        ⟨[⟨"cmp-a", "none", [⟨some "s0", ["/a.css"], ""⟩, ⟨some "s1", ["/b.css"], "md"⟩]⟩]⟩ =
      ⟨"mod.tsx",
        esmNewImports idSerializer ⟨"mod.tsx", [.other 0]⟩
          ⟨[⟨"cmp-a", "none", [⟨some "s0", ["/a.css"], ""⟩, ⟨some "s1", ["/b.css"], "md"⟩]⟩]⟩ ++
        [.other 0]⟩ :=
  ⟨by decide,
   c10_no_imports_inserts_at_front idSerializer ⟨"mod.tsx", [.other 0]⟩
     ⟨[⟨"cmp-a", "none", [⟨some "s0", ["/a.css"], ""⟩, ⟨some "s1", ["/b.css"], "md"⟩]⟩]⟩
     (by decide)⟩

/-- Claim C6. The claim's dichotomy is wrong: the source branches on whether
the entry has external assets, not on whether the identifier is already
bound by an import.  Concretely, for a StyleEntry bound to `cmpAStyle0` with one
external asset, in a module that already imports under the binding
`cmpAStyle0`, the claim demands the path of that import be rewritten in
place (one import, position kept); the code instead appends a second import
with the same binding after the last import, keeping the old one and its
path intact. -/
theorem c6_counterexample_existing_binding_appended :
    (updateEsmStyleImports idSerializer sfC6 mC6).statements =
      [.importDecl (some "cmpAStyle0") "old-path",
       .importDecl (some "cmpAStyle0") "/abs/a.css"] ∧
    (updateEsmStyleImports idSerializer sfC6 mC6).statements ≠
      [.importDecl (some "cmpAStyle0") "/abs/a.css"] := by
  decide

/-- Claim C6 (amended). In the ESM convention, for a module with a single
StyleEntry carrying a bound identifier, the branch is decided by the entry's
external assets: (a) if the entry has at least one external asset, exactly
one new import statement bound to the identifier (importing a path derived
from the first external asset) is inserted immediately after the last
existing import statement — regardless of whether the identifier already
appears as a binding — preserving the relative order of all prior
statements; (b) if the entry has no external assets, the first statement
importing under a default binding equal to the identifier has its path
string rewritten in place, leaving the binding and every statement's
position untouched. -/
theorem c6_amended_branch_on_external_assets
    (serialize : Serializer) (sf : SourceFile) (tag enc mode ident : String) :
    (∀ es : List String, 0 < es.length →
      (updateEsmStyleImports serialize sf
          ⟨[⟨tag, enc, [⟨some ident, es, mode⟩]⟩]⟩).statements =
        sf.statements.take ((lastImportIndex sf.statements + 1).toNat) ++
          [.importDecl (some ident)
            (serialize ⟨es.headD "", sf.fileName, tag, enc, mode⟩)] ++
          sf.statements.drop ((lastImportIndex sf.statements + 1).toNat)) ∧
    (∀ (xs ys : List Stmt) (p : String),
      (∀ s ∈ xs, isBoundImport s ident = false) →
      sf.statements = xs ++ .importDecl (some ident) p :: ys →
      (updateEsmStyleImports serialize sf
          ⟨[⟨tag, enc, [⟨some ident, ([] : List String), mode⟩]⟩]⟩).statements =
        xs ++ .importDecl (some ident)
          (serialize ⟨p, sf.fileName, tag, enc, mode⟩) :: ys) := by
  constructor
  · intro es hes
    unfold updateEsmStyleImports stylePairs
    simp only [List.flatMap_cons, List.map_cons, List.map_nil, List.flatMap_nil,
      List.append_nil, List.foldl_cons, List.foldl_nil]
    rw [show esmStep serialize sf ([], sf.statements, false)
        (⟨tag, enc, [⟨some ident, es, mode⟩]⟩, ⟨some ident, es, mode⟩) =
        ([createEsmStyleImport serialize sf ⟨tag, enc, [⟨some ident, es, mode⟩]⟩
            ⟨some ident, es, mode⟩ ident], sf.statements, true) from by
      simp [esmStep, hes]]
    simp [spliceAfterLastImport, createEsmStyleImport, getStyleImportPath]
  · intro xs ys p hxs hsplit
    unfold updateEsmStyleImports stylePairs
    simp only [List.flatMap_cons, List.map_cons, List.map_nil, List.flatMap_nil,
      List.append_nil, List.foldl_cons, List.foldl_nil]
    rw [show esmStep serialize sf ([], sf.statements, false)
        (⟨tag, enc, [⟨some ident, ([] : List String), mode⟩]⟩,
          ⟨some ident, ([] : List String), mode⟩) =
        ([], updateEsmStyleImportPath serialize sf sf.statements
          ⟨tag, enc, [⟨some ident, ([] : List String), mode⟩]⟩
          ⟨some ident, ([] : List String), mode⟩ ident, true) from by
      simp [esmStep]]
    rw [hsplit, updateEsmStyleImportPath_rewrites_first serialize sf _ _ ident xs hxs p ys]
    simp [spliceAfterLastImport, getStyleImportPath]

/-- Claim C6 witness. Instantiating the amended append case on the
counterexample module: the new import lands right after the existing one. -/
theorem c6_amended_witness :
    0 < (["/abs/a.css"] : List String).length ∧
    (updateEsmStyleImports idSerializer sfC6
        ⟨[⟨"cmp-a", "none", [⟨some "cmpAStyle0", ["/abs/a.css"], ""⟩]⟩]⟩).statements =
      sfC6.statements.take ((lastImportIndex sfC6.statements + 1).toNat) ++
        [.importDecl (some "cmpAStyle0")
          (idSerializer ⟨(["/abs/a.css"] : List String).headD "", sfC6.fileName,
            "cmp-a", "none", ""⟩)] ++
        sfC6.statements.drop ((lastImportIndex sfC6.statements + 1).toNat) :=
  ⟨by decide,
   (c6_amended_branch_on_external_assets idSerializer sfC6 "cmp-a" "none" ""
     "cmpAStyle0").1 ["/abs/a.css"] (by decide)⟩

/-! ### Import-walk lemmas -/

/-- Rewriting `List.contains` in the negative, as membership. -/
theorem contains_false_not_mem {l : List String} {a : String}
    (h : l.contains a = false) : a ∉ l := by
  simpa using h

/-- The walk only ever appends to the visited list (walk loop). -/
theorem walkWith_grow (env : StyleEnv)
    (fileFn : String → String → List String → Bool × List String)
    (hf : ∀ p c ch, ch ⊆ (fileFn p c ch).2) :
    ∀ (imps ch : List String), ch ⊆ (walkWith env fileFn imps ch).2 := by
  intro imps
  induction imps with
  | nil => intro ch; simp [walkWith]
  | cons p rest ih =>
    intro ch
    simp only [walkWith]
    cases hr : readFileOpt env p with
    | none => simpa using ih ch
    | some c =>
      simp only [hr]
      exact (hf p c ch).trans (ih _)

/-- The walk only ever appends to the visited list (content step). -/
theorem contentWith_grow (env : StyleEnv) (filesChanged : List String)
    (fileFn : String → String → List String → Bool × List String)
    (hf : ∀ p c ch, ch ⊆ (fileFn p c ch).2) :
    ∀ (p c : String) (ch : List String),
      ch ⊆ (contentWith env filesChanged fileFn p c ch).2 := by
  intro p c ch
  unfold contentWith
  by_cases h1 : env.cssImports p c = []
  · simp [h1]
  · by_cases h2 : ∃ x ∈ filesChanged, x ∈ env.cssImports p c
    · simp [h1, h2]
    · simp only [h1, h2]
      simpa [h1, h2] using walkWith_grow env fileFn hf (env.cssImports p c) ch

/-- The walk only ever appends to the visited list. -/
theorem hasChangedImportFile_grow (env : StyleEnv) (filesChanged : List String) :
    ∀ (fuel : Nat) (p c : String) (vis : List String),
      vis ⊆ (hasChangedImportFile env filesChanged fuel p c vis).2 := by
  intro fuel
  induction fuel with
  | zero => intro p c vis; simp [hasChangedImportFile]
  | succ f ih =>
    intro p c vis
    simp only [hasChangedImportFile]
    cases hc : vis.contains p with
    | true => simp
    | false =>
      simp only [Bool.false_eq_true, if_false]
      exact (List.subset_append_left vis [p]).trans
        (contentWith_grow env filesChanged _ (fun p c ch => ih p c ch) p c (vis ++ [p]))

/-- The walk loop preserves freedom from duplicates of the visited list. -/
theorem walkWith_nodup (env : StyleEnv)
    (fileFn : String → String → List String → Bool × List String)
    (hf : ∀ p c ch, ch.Nodup → ((fileFn p c ch).2).Nodup) :
    ∀ (imps ch : List String), ch.Nodup → ((walkWith env fileFn imps ch).2).Nodup := by
  intro imps
  induction imps with
  | nil => intro ch h; simpa [walkWith] using h
  | cons p rest ih =>
    intro ch h
    simp only [walkWith]
    cases hr : readFileOpt env p with
    | none => simpa using ih ch h
    | some c =>
      simp only [hr]
      exact ih _ (hf p c ch h)

/-- The content step preserves freedom from duplicates of the visited list. -/
theorem contentWith_nodup (env : StyleEnv) (filesChanged : List String)
    (fileFn : String → String → List String → Bool × List String)
    (hf : ∀ p c ch, ch.Nodup → ((fileFn p c ch).2).Nodup) :
    ∀ (p c : String) (ch : List String),
      ch.Nodup → ((contentWith env filesChanged fileFn p c ch).2).Nodup := by
  intro p c ch h
  unfold contentWith
  by_cases h1 : env.cssImports p c = []
  · simpa [h1] using h
  · by_cases h2 : ∃ x ∈ filesChanged, x ∈ env.cssImports p c
    · simpa [h1, h2] using h
    · simpa [h1, h2] using walkWith_nodup env fileFn hf (env.cssImports p c) ch h

/-- A file path is pushed onto the visited list at most once: the returned
visited list is duplicate-free whenever the initial one is. -/
theorem hasChangedImportFile_nodup (env : StyleEnv) (filesChanged : List String) :
    ∀ (fuel : Nat) (p c : String) (vis : List String),
      vis.Nodup → ((hasChangedImportFile env filesChanged fuel p c vis).2).Nodup := by
  intro fuel
  induction fuel with
  | zero => intro p c vis h; simpa [hasChangedImportFile] using h
  | succ f ih =>
    intro p c vis h
    simp only [hasChangedImportFile]
    cases hc : vis.contains p with
    | true => simpa using h
    | false =>
      simp only [Bool.false_eq_true, if_false]
      have hpush : (vis ++ [p]).Nodup := by
        have hp : p ∉ vis := contains_false_not_mem hc
        simp [List.nodup_append, h, hp]
      exact contentWith_nodup env filesChanged _ (fun p c ch => ih p c ch) p c
        (vis ++ [p]) hpush

/-- A successful read puts the path among the readable keys. -/
theorem readFileOpt_mem_fsKeys (env : StyleEnv) (p c : String)
    (h : readFileOpt env p = some c) : p ∈ fsKeys env := by
  unfold readFileOpt at h
  cases hf : env.fs.find? (fun kv => kv.1 == p) with
  | none => rw [hf] at h; simp at h
  | some kv =>
    have hm := List.mem_of_find?_eq_some hf
    have hp : kv.1 = p := by simpa using List.find?_some hf
    unfold fsKeys
    exact List.mem_dedup.mpr (List.mem_map.mpr ⟨kv, hm, hp⟩)

/-- Growing the visited list cannot increase the count of readable paths
still missing from it. -/
theorem walkMissing_mono (env : StyleEnv) (vis vis' : List String)
    (h : vis ⊆ vis') : walkMissing env vis' ≤ walkMissing env vis := by
  unfold walkMissing
  refine List.Sublist.length_le (List.monotone_filter_right _ ?_)
  intro a ha
  simp only [decide_eq_true_eq] at ha ⊢
  exact fun hm => ha (h hm)

/-- Pushing a readable, unvisited path strictly decreases the count of
readable paths missing from the visited list. -/
theorem walkMissing_push_lt (env : StyleEnv) (vis : List String) (p : String)
    (hp : p ∈ fsKeys env) (hnp : p ∉ vis) :
    walkMissing env (vis ++ [p]) < walkMissing env vis := by
  unfold walkMissing
  have hsub : List.Sublist ((fsKeys env).filter (fun k => decide (k ∉ vis ++ [p])))
      ((fsKeys env).filter (fun k => decide (k ∉ vis))) := by
    refine List.monotone_filter_right _ ?_
    intro a ha
    simp only [decide_eq_true_eq, List.mem_append] at ha ⊢
    exact fun hm => ha (Or.inl hm)
  have hmem : p ∈ (fsKeys env).filter (fun k => decide (k ∉ vis)) :=
    List.mem_filter.mpr ⟨hp, by simpa using hnp⟩
  have hnmem : p ∉ (fsKeys env).filter (fun k => decide (k ∉ vis ++ [p])) := by
    intro hin
    have h2 := (List.mem_filter.mp hin).2
    simp at h2
  refine Nat.lt_of_le_of_ne hsub.length_le ?_
  intro heq
  rw [hsub.eq_of_length heq] at hnmem
  exact hnmem hmem

/-- One fuel step does not change the walk's outcome once the fuel exceeds
the number of readable files not yet visited (stated simultaneously for the
file step, the loop and the content step). -/
theorem walk_stabilize_adjacent (env : StyleEnv) (filesChanged : List String) :
    ∀ f : Nat,
      (∀ (p c : String) (vis : List String), p ∈ fsKeys env →
        walkMissing env vis + 1 ≤ f →
        hasChangedImportFile env filesChanged f p c vis =
          hasChangedImportFile env filesChanged (f + 1) p c vis) ∧
      (∀ (imps ch : List String), walkMissing env ch + 1 ≤ f →
        walkWith env (hasChangedImportFile env filesChanged f) imps ch =
          walkWith env (hasChangedImportFile env filesChanged (f + 1)) imps ch) ∧
      (∀ (p c : String) (ch : List String), walkMissing env ch + 1 ≤ f →
        contentWith env filesChanged (hasChangedImportFile env filesChanged f) p c ch =
          contentWith env filesChanged (hasChangedImportFile env filesChanged (f + 1)) p c ch) := by
  intro f
  induction f with
  | zero =>
    refine ⟨?_, ?_, ?_⟩
    · intro p c vis _ hb; omega
    · intro imps ch hb; omega
    · intro p c ch hb; omega
  | succ f ih =>
    obtain ⟨ihFile, ihWalk, ihContent⟩ := ih
    have hFile : ∀ (p c : String) (vis : List String), p ∈ fsKeys env →
        walkMissing env vis + 1 ≤ f + 1 →
        hasChangedImportFile env filesChanged (f + 1) p c vis =
          hasChangedImportFile env filesChanged (f + 2) p c vis := by
      intro p c vis hp hb
      show hasChangedImportFile env filesChanged (Nat.succ f) p c vis =
        hasChangedImportFile env filesChanged (Nat.succ (f + 1)) p c vis
      simp only [hasChangedImportFile]
      cases hc : vis.contains p with
      | true => simp
      | false =>
        simp only [Bool.false_eq_true, if_false]
        apply ihContent
        have hlt := walkMissing_push_lt env vis p hp (contains_false_not_mem hc)
        omega
    have hWalk : ∀ (imps ch : List String), walkMissing env ch + 1 ≤ f + 1 →
        walkWith env (hasChangedImportFile env filesChanged (f + 1)) imps ch =
          walkWith env (hasChangedImportFile env filesChanged (f + 2)) imps ch := by
      intro imps
      induction imps with
      | nil => intro ch _; rfl
      | cons q rest ihq =>
        intro ch hb
        simp only [walkWith]
        cases hr : readFileOpt env q with
        | none =>
          simp only [hr]
          rw [ihq ch hb]
        | some c =>
          simp only [hr]
          have hq := readFileOpt_mem_fsKeys env q c hr
          rw [hFile q c ch hq hb]
          have hsub : ch ⊆ (hasChangedImportFile env filesChanged (f + 2) q c ch).2 :=
            hasChangedImportFile_grow env filesChanged (f + 2) q c ch
          have hmono := walkMissing_mono env ch _ hsub
          rw [ihq _ (by omega)]
    have hContent : ∀ (p c : String) (ch : List String),
        walkMissing env ch + 1 ≤ f + 1 →
        contentWith env filesChanged (hasChangedImportFile env filesChanged (f + 1)) p c ch =
          contentWith env filesChanged (hasChangedImportFile env filesChanged (f + 2)) p c ch := by
      intro p c ch hb
      unfold contentWith
      by_cases h1 : env.cssImports p c = []
      · simp [h1]
      · by_cases h2 : ∃ x ∈ filesChanged, x ∈ env.cssImports p c
        · simp [h1, h2]
        · simpa [h1, h2] using hWalk (env.cssImports p c) ch hb
    exact ⟨hFile, hWalk, hContent⟩

/-- Beyond `walkBound`, the walk's result does not depend on the fuel: the
embedded recursion has converged, which is the shallow statement of the
source walk's termination on a finite file system. -/
theorem hasChangedImportFile_stabilize (env : StyleEnv) (filesChanged : List String) :
    ∀ (p c : String) (vis : List String) (fuel : Nat), walkBound env vis ≤ fuel →
      hasChangedImportFile env filesChanged fuel p c vis =
        hasChangedImportFile env filesChanged (walkBound env vis) p c vis := by
  have hadj : ∀ (f : Nat) (p c : String) (vis : List String), walkBound env vis ≤ f →
      hasChangedImportFile env filesChanged f p c vis =
        hasChangedImportFile env filesChanged (f + 1) p c vis := by
    intro f p c vis hb
    obtain ⟨g, rfl⟩ : ∃ g, f = g + 1 := ⟨f - 1, by unfold walkBound at hb; omega⟩
    show hasChangedImportFile env filesChanged (Nat.succ g) p c vis =
      hasChangedImportFile env filesChanged (Nat.succ (g + 1)) p c vis
    simp only [hasChangedImportFile]
    cases hc : vis.contains p with
    | true => simp
    | false =>
      simp only [Bool.false_eq_true, if_false]
      apply (walk_stabilize_adjacent env filesChanged g).2.2
      have hmono := walkMissing_mono env vis (vis ++ [p]) (List.subset_append_left _ _)
      unfold walkBound at hb
      omega
  intro p c vis fuel hb
  induction fuel, hb using Nat.le_induction with
  | base => rfl
  | succ n hn ih => rw [← hadj n p c vis hn]; exact ih

/-- Claim C3. The recursive dependency walk terminates on every finite import
graph: beyond the explicit fuel bound `walkBound` its result never changes
(so the budget-free source recursion has a well-defined value); the
visited list threaded through the recursion never acquires a duplicate, so
each file is walked at most once per top-level check; and on the cyclic
graph `A → B → A` the walk reports a changed import when `B` is among
`filesChanged` and no changed import when neither `A` nor `B` changed. -/
theorem c3_walk_terminates_and_is_cycle_safe :
    (∀ (env : StyleEnv) (filesChanged : List String) (p c : String)
        (vis : List String) (fuel : Nat), walkBound env vis ≤ fuel →
      hasChangedImportFile env filesChanged fuel p c vis =
        hasChangedImportFile env filesChanged (walkBound env vis) p c vis) ∧
    (∀ (env : StyleEnv) (filesChanged : List String) (fuel : Nat)
        (p c : String) (vis : List String), vis.Nodup →
      ((hasChangedImportFile env filesChanged fuel p c vis).2).Nodup) ∧
    (hasChangedImportFile envABA ["B"] (walkBound envABA []) "A" "ca" []).1 = true ∧
    (hasChangedImportFile envABA ["unrelated.ts"] (walkBound envABA []) "A" "ca" []).1 = false := by
  refine ⟨?_, ?_, by decide, by decide⟩
  · intro env filesChanged p c vis fuel hb
    exact hasChangedImportFile_stabilize env filesChanged p c vis fuel hb
  · intro env filesChanged fuel p c vis h
    exact hasChangedImportFile_nodup env filesChanged fuel p c vis h

/-- Claim C3 witness. On the cyclic graph, a fuel of 9 already exceeds the
bound and agrees with the bound's result, and the visited list built from a
duplicate-free start stays duplicate-free. -/
theorem c3_walk_witness :
    walkBound envABA [] ≤ 9 ∧
    hasChangedImportFile envABA ["B"] 9 "A" "ca" [] =
      hasChangedImportFile envABA ["B"] (walkBound envABA []) "A" "ca" [] ∧
    (([] : List String)).Nodup ∧
    ((hasChangedImportFile envABA ["B"] 9 "A" "ca" []).2).Nodup :=
  ⟨by decide,
   c3_walk_terminates_and_is_cycle_safe.1 envABA ["B"] "A" "ca" [] 9 (by decide),
   List.nodup_nil,
   c3_walk_terminates_and_is_cycle_safe.2.1 envABA ["B"] 9 "A" "ca" [] List.nodup_nil⟩

/-- Removing an unreadable path from the import list leaves the walk loop's
outcome (verdict and visited list) unchanged. -/
theorem walkWith_skips_unreadable (env : StyleEnv)
    (fileFn : String → String → List String → Bool × List String) :
    ∀ (xs : List String) (bad : String) (ys checked : List String),
      readFileOpt env bad = none →
      walkWith env fileFn (xs ++ bad :: ys) checked =
        walkWith env fileFn (xs ++ ys) checked := by
  intro xs
  induction xs with
  | nil =>
    intro bad ys checked hbad
    simp only [List.nil_append, walkWith, hbad]
    simp
  | cons x rest ih =>
    intro bad ys checked hbad
    simp only [List.cons_append, walkWith, List.append_eq]
    rw [ih bad ys _ hbad]

/-- Claim C8. A failed file read never masks invalidation elsewhere: dropping
an unreadable import from the walk's worklist changes nothing — verdict and
visited list are those of walking the remaining graph — so the verdict is
"changed import found" exactly when the readable part of the graph contains
a changed file; concretely, with `A` importing unreadable `bad` and readable
`B`, and `B` importing changed `C`, the walk still reports the change. -/
theorem c8_failed_read_contributes_false :
    (∀ (env : StyleEnv) (filesChanged : List String) (fuel : Nat)
        (xs : List String) (bad : String) (ys checked : List String),
      readFileOpt env bad = none →
      walkCssImports env filesChanged fuel (xs ++ bad :: ys) checked =
        walkCssImports env filesChanged fuel (xs ++ ys) checked) ∧
    readFileOpt envBadRead "bad" = none ∧
    (hasChangedImportFile envBadRead ["C"] 9 "A" "ca" []).1 = true := by
  refine ⟨?_, by decide, by decide⟩
  intro env filesChanged fuel xs bad ys checked hbad
  unfold walkCssImports
  exact walkWith_skips_unreadable env _ xs bad ys checked hbad

/-- Claim C8 witness. The worklist equation applied on the concrete graph:
walking `[bad, B]` equals walking `[B]`. -/
theorem c8_failed_read_witness :
    readFileOpt envBadRead "bad" = none ∧
    walkCssImports envBadRead ["C"] 9 ["bad", "B"] ["A"] =
      walkCssImports envBadRead ["C"] 9 ["B"] ["A"] :=
  ⟨by decide,
   c8_failed_read_contributes_false.1 envBadRead ["C"] 9 [] "bad" ["B"] ["A"]
     (by decide)⟩

end Stencil
